import Mathlib

/-!
# Supervision of the bitmarkd subprocess (`services/bitmarkd.go`)

A shallow embedding of the `Bitmarkd` service: the supervisor record, the
administrative calls (`Initialise`, `Finalise`, `SetNetwork`, `Start`, `Stop`),
the respawn goroutine launched by `Start` as a small-step machine, and the seed
extraction of the telemetry loop.

Conventions of the embedding:
* a Go `error` result is `Option Fault` (`none` is `nil`);
* a call that can hit a runtime panic returns `Option _`, `none` being the panic;
* what the operating system decides (does the config file exist, does the spawn
  succeed, what does `cmd.Wait` return, does signal delivery succeed) is an input
  of the step that asks for it;
* of the logger only its presence is modelled (`Bitmarkd.log`): a log call through the
  nil `*logger.L` of a supervisor that was never initialised is a panic; what is logged
  is not modelled. The respawn goroutine and the stream readers exist only after the log
  call of line 166 has returned and `log` is never reset, so their own log calls are not
  given a panic outcome;
* `Loop.sleeps`, `Loop.spawns` and `Sys.signals` are ghost logs: they record the
  arguments of `time.Sleep`, the number of spawn attempts and the signals sent.
-/

namespace Services

/-! ## Data model -/

/-- Process handle (`*os.Process`), identified by its pid. -/
abbrev Pid := Nat

/-- Error values returned by the service. -/
inductive Fault
  | ErrBitmarkdIsNotRunning
  | ErrBitmarkdIsRunning
  | ErrNotFoundConfigFile
  | ErrNotInitialised
  | ErrAlreadyInitialised
  | signalError (msg : String)
  deriving DecidableEq, Repr

/-- Signals that `Stop` sends. -/
inductive Signal
  | Interrupt
  | Kill
  deriving DecidableEq, Repr

/-- Fields of `type Bitmarkd struct` that carry state (lines 36-49). `log` tells whether
the pointer `log *logger.L` is set: it is nil until line 87 of `Initialise`. -/
structure Bitmarkd where
  initialised : Bool
  log : Bool
  rootPath : String
  configFile : String
  network : String
  process : Option Pid
  running : Bool
  started : Bool
  cmdErr : String
  localIP : String
  deriving DecidableEq, Repr

/-- What the service asks of its surroundings, taken as parameters because the functions
live outside `services/bitmarkd.go`: `utils.EnsureFileExists` (does the file exist) and
`filepath.Join`. -/
structure Host where
  fileExists : String → Bool
  join : String → String → String

/-- Result of an administrative call: returned error, new state, signals sent. -/
structure CallResult where
  ret : Option Fault
  state : Bitmarkd
  sent : List (Pid × Signal)
  deriving DecidableEq, Repr

/-- Result of a `Start` that returns: returned error, new state, whether the respawn
goroutine was launched. -/
structure StartResult where
  ret : Option Fault
  state : Bitmarkd
  launched : Bool
  deriving DecidableEq, Repr

/-! ## Administrative calls -/

/-- Constructor `NewBitmarkd` (lines 60-64): every field but `localIP` has its zero value. -/
def NewBitmarkd (localIP : String) : Bitmarkd :=
  { initialised := false, log := false, rootPath := "", configFile := "", network := "",
    process := none, running := false, started := false, cmdErr := "",
    localIP := localIP }

/-- Method `Initialise` (lines 77-98); line 87 sets the logger. -/
def Initialise (rootPath : String) (b : Bitmarkd) : Option Fault × Bitmarkd :=
  if b.initialised then (some .ErrAlreadyInitialised, b)
  else (none, { b with rootPath := rootPath, log := true, started := false, running := false,
                       initialised := true })

/-- Method `IsRunning` (lines 113-115). -/
def IsRunning (b : Bitmarkd) : Bool := b.running

/-- Method `Stop` (lines 270-295). `sig` is what `process.Signal` returns if it is
called. The log call of line 272 precedes the return of line 273, so it is a panic when
the logger is nil. The log statement of line 276 reads `bitmarkd.process.Pid` before the
nil test of line 278, so a nil handle is a nil-pointer panic, and so is a nil logger. -/
def Stop (sig : Option String) (b : Bitmarkd) : Option CallResult :=
  if !b.running then
    if b.log then some ⟨some .ErrBitmarkdIsNotRunning, b, []⟩ else none
  else
    match b.process with
    | none => none
    | some p =>
      if !b.log then none
      else if b.started then
        match sig with
        | some e => some ⟨some (.signalError e), b, [(p, .Interrupt)]⟩
        | none => some ⟨none, { b with started := false }, [(p, .Interrupt)]⟩
      else
        match sig with
        | some e => some ⟨some (.signalError e), b, [(p, .Kill)]⟩
        | none => some ⟨none, { b with started := false }, [(p, .Kill)]⟩

/-- Method `Finalise` (lines 100-111): the result of `Stop` is discarded. -/
def Finalise (sig : Option String) (b : Bitmarkd) : Option CallResult :=
  if !b.initialised then
    some ⟨some .ErrNotInitialised, b, []⟩
  else
    match Stop sig { b with initialised := false } with
    | none => none
    | some r => some ⟨none, r.state, r.sent⟩

/-- Method `SetNetwork` (lines 144-157): the result of `Stop` is discarded. -/
def SetNetwork (host : Host) (network : String) (sig : Option String) (b : Bitmarkd) :
    Option (Bitmarkd × List (Pid × Signal)) :=
  let stopped : Option (Bitmarkd × List (Pid × Signal)) :=
    if b.started then (Stop sig b).map (fun r => (r.state, r.sent)) else some (b, [])
  stopped.map fun (b1, sent) =>
    let b2 := { b1 with network := network }
    if network = "testing" then
      ({ b2 with configFile := host.join b2.rootPath "testing/bitmarkd.conf" }, sent)
    else
      ({ b2 with configFile := host.join b2.rootPath "bitmark/bitmarkd.conf" }, sent)

/-- Method `Start` (lines 159-268), the caller's side: the two guards, then
`started = true` and the launch of the respawn goroutine. The log calls of lines 161 and
166 precede every return, so with a nil logger the call is a panic. The return value is
nil whatever the goroutine meets (lines 265-266). -/
def Start (host : Host) (b : Bitmarkd) : Option StartResult :=
  if b.started then
    if b.log then some ⟨some .ErrBitmarkdIsRunning, b, false⟩ else none
  else if !b.log then none
  else if !host.fileExists b.configFile then some ⟨some .ErrNotFoundConfigFile, b, false⟩
  else some ⟨none, { b with started := true }, true⟩

/-! ## Back-off arithmetic -/

/-- Two's-complement reading of an integer as a Go `int64`. -/
def wrapInt64 (n : Int) : Int := (n + 2 ^ 63) % 2 ^ 64 - 2 ^ 63

/-- Line 253: `delayTime := 5 * runCounter * runCounter` in `uint64`. -/
def delayTime (runCounter : Nat) : Nat := ((5 * runCounter) % 2 ^ 64 * runCounter) % 2 ^ 64

/-- Constant `time.Second`, in nanoseconds. -/
def Second : Int := 1000000000

/-- Line 255: the argument of `time.Sleep`, `time.Duration(delayTime) * time.Second`,
an `int64` count of nanoseconds. -/
def sleepDuration (runCounter : Nat) : Int :=
  wrapInt64 (wrapInt64 (delayTime runCounter) * Second)

/-! ## The respawn goroutine (lines 175-263) -/

/-- Program points of the respawn goroutine. -/
inductive PC
  | head
  | spawning
  | assignProcess (h : Pid)
  | assignRunning
  | waiting
  | sleeping
  | clearProcess
  | clearRunning
  | done
  deriving DecidableEq, Repr

/-- Local state of one respawn goroutine. -/
structure Loop where
  pc : PC
  runCounter : Nat
  sleeps : List Int
  spawns : Nat
  deriving DecidableEq, Repr

/-- Events of one respawn goroutine. -/
inductive LoopEvent
  | step
  | spawned (r : Option Pid)
  | exited (err : Option String)
  deriving DecidableEq, Repr

/-- Goroutine as launched by `Start`: `var runCounter uint64`, about to test `started`. -/
def Loop.fresh : Loop := { pc := .head, runCounter := 0, sleeps := [], spawns := 0 }

/-- Lines 192-194: the saturating increment of `runCounter`. -/
def bump (runCounter : Nat) : Nat :=
  if runCounter < 65535 then runCounter + 1 else runCounter

/-- One step of the respawn goroutine on the shared record.
* `head`: line 177, the test of `bitmarkd.started`;
* `spawning`: lines 179-216, counter increment, pipes and `cmd.Start`; a failure is `continue`;
* `assignProcess`: line 218; `assignRunning`: line 249;
* `waiting`: lines 250-259, `cmd.Wait` returns;
* `sleeping`: `time.Sleep` returns;
* `clearProcess`: line 260; `clearRunning`: line 261. -/
def loopStep (ev : LoopEvent) (b : Bitmarkd) (l : Loop) : Option (Bitmarkd × Loop) :=
  match l.pc, ev with
  | .head, .step =>
    if b.started then some (b, { l with pc := .spawning })
    else some (b, { l with pc := .done })
  | .spawning, .spawned r =>
    match r with
    | none =>
      some (b, { l with pc := .head, runCounter := bump l.runCounter, spawns := l.spawns + 1 })
    | some h =>
      some (b, { l with pc := .assignProcess h, runCounter := bump l.runCounter,
                        spawns := l.spawns + 1 })
  | .assignProcess h, .step => some ({ b with process := some h }, { l with pc := .assignRunning })
  | .assignRunning, .step => some ({ b with running := true }, { l with pc := .waiting })
  | .waiting, .exited err =>
    match err with
    | some _ =>
      if b.started then
        some (b, { l with pc := .sleeping, sleeps := l.sleeps ++ [sleepDuration l.runCounter] })
      else
        some ({ b with cmdErr := "" }, { l with pc := .clearProcess })
    | none => some (b, { l with pc := .clearProcess })
  | .sleeping, .step => some (b, { l with pc := .clearProcess })
  | .clearProcess, .step => some ({ b with process := none }, { l with pc := .clearRunning })
  | .clearRunning, .step => some ({ b with running := false }, { l with pc := .head })
  | _, _ => none

/-- Consecutive steps of one respawn goroutine, nothing else touching the record. -/
def loopRun : List LoopEvent → Bitmarkd → Loop → Option (Bitmarkd × Loop)
  | [], b, l => some (b, l)
  | ev :: evs, b, l =>
    match loopStep ev b l with
    | none => none
    | some (b1, l1) => loopRun evs b1 l1

/-- One full iteration in which the spawn succeeds with handle `h` and `cmd.Wait`
returns the error `e`: head test, spawn, the two assignments, exit, wake-up, the two
clearing assignments. -/
def crashIteration (h : Pid) (e : String) : List LoopEvent :=
  [.step, .spawned (some h), .step, .step, .exited (some e), .step, .step, .step]

/-- Run of `n` consecutive crash iterations. -/
def crashRun (h : Pid) (e : String) : Nat → Bitmarkd → Loop → Option (Bitmarkd × Loop)
  | 0, b, l => some (b, l)
  | n + 1, b, l =>
    match loopRun (crashIteration h e) b l with
    | none => none
    | some (b1, l1) => crashRun h e n b1 l1

/-! ## The whole service: calls interleaved with goroutines -/

/-- Whole-system state: shared record, the respawn goroutines launched so far, signals sent. -/
structure Sys where
  b : Bitmarkd
  loops : List Loop
  signals : List (Pid × Signal)
  deriving DecidableEq, Repr

/-- Atomic actions of the system. -/
inductive Action
  | initialise (rootPath : String)
  | start
  | stop (sig : Option String)
  | setNetwork (network : String) (sig : Option String)
  | finalise (sig : Option String)
  | loop (i : Nat) (ev : LoopEvent)
  | stderrLine (line : String)
  | stdoutLine (line : String)
  deriving DecidableEq, Repr

/-- Number of respawn goroutines that have not returned. -/
def activeLoops (s : Sys) : Nat := (s.loops.filter (fun l => l.pc ≠ .done)).length

/-- One atomic action; `none` when the action is not enabled or the program panics.
`initialise` is the call of `Initialise`; `stderrLine` is line 231; `stdoutLine` is lines 242-246, where a line that starts with
`CURVE I:` is skipped. -/
def sysStep (host : Host) (a : Action) (s : Sys) : Option Sys :=
  match a with
  | .initialise rootPath => some { s with b := (Initialise rootPath s.b).2 }
  | .start =>
    (Start host s.b).map fun r =>
      { s with b := r.state, loops := if r.launched then s.loops ++ [Loop.fresh] else s.loops }
  | .stop sig =>
    (Stop sig s.b).map fun r => { s with b := r.state, signals := s.signals ++ r.sent }
  | .setNetwork n sig =>
    (SetNetwork host n sig s.b).map fun r => { s with b := r.1, signals := s.signals ++ r.2 }
  | .finalise sig =>
    (Finalise sig s.b).map fun r => { s with b := r.state, signals := s.signals ++ r.sent }
  | .loop i ev =>
    match s.loops[i]? with
    | none => none
    | some l =>
      (loopStep ev s.b l).map fun r => { s with b := r.1, loops := s.loops.set i r.2 }
  | .stderrLine line => some { s with b := { s.b with cmdErr := line } }
  | .stdoutLine line =>
    if line.startsWith "CURVE I:" then some s else some { s with b := { s.b with cmdErr := "" } }

/-- Run of a sequence of actions. -/
def run (host : Host) : List Action → Sys → Option Sys
  | [], s => some s
  | a :: as, s =>
    match sysStep host a s with
    | none => none
    | some s1 => run host as s1

/-- Freshly initialised supervisor: `NewBitmarkd` then `Initialise`. -/
def boot (localIP rootPath : String) : Sys :=
  { b := (Initialise rootPath (NewBitmarkd localIP)).2, loops := [], signals := [] }

/-- Supervisor as `NewBitmarkd` returns it, not yet initialised, with no goroutine. -/
def newSys (localIP : String) : Sys :=
  { b := NewBitmarkd localIP, loops := [], signals := [] }

/-- Actions that are neither a `Start` nor a step of a respawn goroutine: the other
calls and the lines delivered by the stream readers. -/
def Action.quiet : Action → Bool
  | .start => false
  | .loop _ _ => false
  | _ => true

/-- Lines delivered by either stream reader. -/
def Action.isReader : Action → Bool
  | .stderrLine _ => true
  | .stdoutLine _ => true
  | _ => false

/-- Lines delivered by the stderr reader. -/
def Action.isStderr : Action → Bool
  | .stderrLine _ => true
  | _ => false

/-- Schedule of a shutdown: `cmd.Wait` returns `r` in goroutine `i`, which then takes its
three remaining steps (lines 260, 261 and the loop test of line 177), with the actions
`q1`, `q2`, `q3` of other parties in between. -/
def shutdownSchedule (i : Nat) (r : Option String) (q1 q2 q3 : List Action) : List Action :=
  [.loop i (.exited r)] ++ q1 ++ [.loop i .step] ++ q2 ++ [.loop i .step] ++ q3 ++
    [.loop i .step]

/-- Host used in the concrete scenarios: only the two config files under `/data` exist. -/
def demoHost : Host :=
  { fileExists := fun p => p == "/data/bitmark/bitmarkd.conf" || p == "/data/testing/bitmarkd.conf",
    join := fun a c => a ++ "/" ++ c }

/-- Sample record: initialised, started, observed running with handle 7. -/
def demoRunning : Bitmarkd :=
  { initialised := true, log := true, rootPath := "/data",
    configFile := "/data/bitmark/bitmarkd.conf",
    network := "bitmark", process := some 7, running := true, started := true,
    cmdErr := "", localIP := "10.0.0.1" }

/-- Sample state: the supervisor of `demoRunning` with its one respawn goroutine blocked
in `cmd.Wait` after its first spawn. -/
def demoSpawned : Sys :=
  { b := demoRunning, loops := [{ pc := .waiting, runCounter := 1, sleeps := [], spawns := 1 }],
    signals := [] }

/-- Sample state: `demoSpawned` after the stderr line `boom` and a successful `Stop`. -/
def demoStopped : Sys :=
  { b := { demoRunning with started := false, cmdErr := "boom\n" },
    loops := [{ pc := .waiting, runCounter := 1, sleeps := [], spawns := 1 }],
    signals := [(7, Signal.Interrupt)] }

/-- Sample state: what the witness run of the shutdown ends in. -/
def demoEnded : Sys :=
  { b := { demoRunning with started := false, process := none, running := false,
                            network := "testing", configFile := "/data/testing/bitmarkd.conf" },
    loops := [{ pc := .done, runCounter := 1, sleeps := [], spawns := 1 }],
    signals := [(7, Signal.Interrupt), (7, Signal.Kill)] }

/-! ## Telemetry: seed extraction (line 345) -/

/-- Function `strings.Split` for a one-character separator, on the characters of the string. -/
def split (sep : Char) : List Char → List (List Char)
  | [] => [[]]
  | c :: cs =>
    if c = sep then [] :: split sep cs
    else
      match split sep cs with
      | [] => [[c]]
      | x :: xs => (c :: x) :: xs

/-- Function `strings.Trim` with a one-character cutset. -/
def trim (cut : Char) (cs : List Char) : List Char :=
  ((cs.dropWhile (fun c => c = cut)).reverse.dropWhile (fun c => c = cut)).reverse

/-- Line 345: `strings.Trim(strings.Split(buf.String(), ":")[1], "\n")`; `none` is the
index-out-of-range panic. -/
def extractSeed (content : String) : Option String :=
  match (split ':' content.data)[1]? with
  | none => none
  | some field => some (String.mk (trim '\n' field))

/-- Outcome of the key-material part of a telemetry tick. -/
inductive TickOutcome
  | panicked
  | aborted
  | proceeds (seed : String)
  deriving DecidableEq, Repr

/-- Lines 345-350: seed extraction, then `account.PrivateKeyFromBase58Seed`, whose
verdict on the seed is the parameter `validSeed`; an invalid seed is `continue`. -/
def seedTick (validSeed : String → Bool) (content : String) : TickOutcome :=
  match extractSeed content with
  | none => .panicked
  | some seed => if validSeed seed then .proceeds seed else .aborted

/-! ## What the calls leave alone -/

/-- A `Stop` that returns had a logger; it leaves the record as it was or clears `started`. -/
theorem Stop_frame (sig : Option String) (b : Bitmarkd) (r : CallResult)
    (h : Stop sig b = some r) :
    b.log = true ∧ (r.state = b ∨ r.state = { b with started := false }) := by
  unfold Stop at h
  cases hr : b.running <;> cases hl : b.log <;> cases hp : b.process <;>
    cases hs : b.started <;> cases sig <;> simp [hr, hl, hp, hs] at h <;> subst h <;> simp

/-- A `Finalise` that returns changes at most `initialised` and `started`, and only to false. -/
theorem Finalise_frame (sig : Option String) (b : Bitmarkd) (r : CallResult)
    (h : Finalise sig b = some r) :
    r.state.log = b.log ∧ r.state.running = b.running ∧ r.state.process = b.process ∧
      r.state.cmdErr = b.cmdErr ∧
      (r.state.started = b.started ∨ r.state.started = false) ∧
      (r.state.initialised = b.initialised ∨ r.state.initialised = false) := by
  unfold Finalise at h
  cases hi : b.initialised
  · simp [hi] at h; subst h; simp [hi]
  · simp only [hi, Bool.not_true, Bool.false_eq_true, if_false] at h
    cases hst : Stop sig { b with initialised := false } with
    | none => simp [hst] at h
    | some r1 =>
      simp only [hst, Option.some.injEq] at h
      subst h
      rcases (Stop_frame sig _ r1 hst).2 with e | e <;> simp [e]

/-- A `SetNetwork` that returns changes `network` and `configFile`, and may clear `started`. -/
theorem SetNetwork_frame (host : Host) (n : String) (sig : Option String) (b : Bitmarkd)
    (r : Bitmarkd × List (Pid × Signal)) (h : SetNetwork host n sig b = some r) :
    r.1.log = b.log ∧ r.1.running = b.running ∧ r.1.process = b.process ∧
      r.1.cmdErr = b.cmdErr ∧ r.1.initialised = b.initialised ∧
      (r.1.started = b.started ∨ r.1.started = false) := by
  unfold SetNetwork at h
  cases hs : b.started
  · simp only [hs, Bool.false_eq_true, if_false, Option.map_some', Option.some.injEq] at h
    subst h
    split <;> simp [hs]
  · simp only [hs, if_true, Option.map_map, Option.map_eq_some'] at h
    obtain ⟨r1, hst, rfl⟩ := h
    rcases (Stop_frame sig b r1 hst).2 with e | e <;>
      simp only [Function.comp] <;> split <;> simp [e]

/-- A step of a respawn goroutine leaves `log`, `initialised` and `started` alone. -/
theorem loopStep_frame (ev : LoopEvent) (b b1 : Bitmarkd) (l l1 : Loop)
    (h : loopStep ev b l = some (b1, l1)) :
    b1.log = b.log ∧ b1.initialised = b.initialised ∧ b1.started = b.started := by
  unfold loopStep at h
  split at h
  · split at h <;> simp only [Option.some.injEq, Prod.mk.injEq] at h <;>
      obtain ⟨rfl, _⟩ := h <;> simp
  · split at h <;> simp only [Option.some.injEq, Prod.mk.injEq] at h <;>
      obtain ⟨rfl, _⟩ := h <;> simp
  · simp only [Option.some.injEq, Prod.mk.injEq] at h; obtain ⟨rfl, _⟩ := h; simp
  · simp only [Option.some.injEq, Prod.mk.injEq] at h; obtain ⟨rfl, _⟩ := h; simp
  · split at h
    · split at h <;> simp only [Option.some.injEq, Prod.mk.injEq] at h <;>
        obtain ⟨rfl, _⟩ := h <;> simp
    · simp only [Option.some.injEq, Prod.mk.injEq] at h; obtain ⟨rfl, _⟩ := h; simp
  · simp only [Option.some.injEq, Prod.mk.injEq] at h; obtain ⟨rfl, _⟩ := h; simp
  · simp only [Option.some.injEq, Prod.mk.injEq] at h; obtain ⟨rfl, _⟩ := h; simp
  · simp only [Option.some.injEq, Prod.mk.injEq] at h; obtain ⟨rfl, _⟩ := h; simp
  · simp at h

/-- A `Start` that returns had a logger, and keeps it. -/
theorem Start_frame (host : Host) (b : Bitmarkd) (r : StartResult)
    (h : Start host b = some r) : b.log = true ∧ r.state.log = true := by
  unfold Start at h
  cases hs : b.started <;> cases hl : b.log <;> cases hf : host.fileExists b.configFile <;>
    simp [hs, hl, hf] at h <;> subst h <;> simp [hl]

/-! ## The logger in reachable states -/

/-- One action keeps the alternative: the logger is set, or the supervisor was never
initialised, is not observed running and has no respawn goroutine. -/
theorem sysStep_logger (host : Host) (a : Action) (s s1 : Sys)
    (h : sysStep host a s = some s1)
    (hinv : s.b.log = true ∨
      (s.b.initialised = false ∧ s.b.running = false ∧ s.loops = [])) :
    s1.b.log = true ∨ (s1.b.initialised = false ∧ s1.b.running = false ∧ s1.loops = []) := by
  cases a with
  | initialise rootPath =>
    simp only [sysStep, Option.some.injEq] at h
    subst h
    rcases hinv with hl | ⟨hi, _, _⟩
    · left
      show (Initialise rootPath s.b).2.log = true
      unfold Initialise
      split <;> simp [hl]
    · left
      show (Initialise rootPath s.b).2.log = true
      simp [Initialise, hi]
  | start =>
    simp only [sysStep, Option.map_eq_some'] at h
    obtain ⟨r, hr, rfl⟩ := h
    exact Or.inl (Start_frame host s.b r hr).2
  | stop sig =>
    simp only [sysStep, Option.map_eq_some'] at h
    obtain ⟨r, hr, rfl⟩ := h
    left
    have hf := Stop_frame sig s.b r hr
    rcases hf.2 with e | e <;> simp [e, hf.1]
  | setNetwork n sig =>
    simp only [sysStep, Option.map_eq_some'] at h
    obtain ⟨r, hr, rfl⟩ := h
    obtain ⟨h1, h2, _, _, h5, _⟩ := SetNetwork_frame host n sig s.b r hr
    rcases hinv with hl | ⟨hi, hru, hlo⟩
    · exact Or.inl (by simp [h1, hl])
    · exact Or.inr ⟨by simp [h5, hi], by simp [h2, hru], hlo⟩
  | finalise sig =>
    simp only [sysStep, Option.map_eq_some'] at h
    obtain ⟨r, hr, rfl⟩ := h
    obtain ⟨h1, h2, _, _, _, h6⟩ := Finalise_frame sig s.b r hr
    rcases hinv with hl | ⟨hi, hru, hlo⟩
    · exact Or.inl (by simp [h1, hl])
    · refine Or.inr ⟨?_, by simp [h2, hru], hlo⟩
      rcases h6 with e | e
      · simp [e, hi]
      · simp [e]
  | loop i ev =>
    simp only [sysStep] at h
    cases hl : s.loops[i]? with
    | none => simp [hl] at h
    | some l =>
      simp only [hl, Option.map_eq_some'] at h
      obtain ⟨r, hr, rfl⟩ := h
      rcases hinv with hlog | ⟨_, _, hlo⟩
      · exact Or.inl (by simp [(loopStep_frame ev s.b r.1 l r.2 hr).1, hlog])
      · rw [hlo] at hl; simp at hl
  | stderrLine line =>
    simp only [sysStep, Option.some.injEq] at h
    subst h
    exact hinv
  | stdoutLine line =>
    simp only [sysStep] at h
    split at h <;> simp only [Option.some.injEq] at h <;> subst h <;> exact hinv

/-- Every state reached from a new supervisor has its logger set, unless the supervisor
was never initialised, is not observed running and has no respawn goroutine. -/
theorem run_logger (host : Host) :
    ∀ (as : List Action) (s s1 : Sys), run host as s = some s1 →
      (s.b.log = true ∨ (s.b.initialised = false ∧ s.b.running = false ∧ s.loops = [])) →
      (s1.b.log = true ∨
        (s1.b.initialised = false ∧ s1.b.running = false ∧ s1.loops = [])) := by
  intro as
  induction as with
  | nil => intro s s1 h hinv; simp only [run, Option.some.injEq] at h; subst h; exact hinv
  | cons a as ih =>
    intro s s1 h hinv
    simp only [run] at h
    cases hstep : sysStep host a s with
    | none => simp [hstep] at h
    | some s2 =>
      simp only [hstep] at h
      exact ih s2 s1 h (sysStep_logger host a s s2 hstep hinv)

/-- General form of C2, on any record that has a logger. -/
theorem Stop_running_logged (sig : Option String) (b : Bitmarkd) (p : Pid)
    (hl : b.log = true) (hr : b.running = true) (hp : b.process = some p) :
    ∃ r, Stop sig b = some r ∧
      r.sent = [(p, if b.started then Signal.Interrupt else Signal.Kill)] ∧
      (sig = none → r.ret = none ∧ r.state = { b with started := false }) ∧
      (∀ e, sig = some e → r.ret = some (Fault.signalError e) ∧ r.state = b) := by
  cases hs : b.started <;> cases sig <;> simp [Stop, hl, hr, hp, hs]

/-- C2: in every state reached from a new supervisor with `running` true and a handle `p`
present, `Stop` sends exactly one signal to `p`, an interrupt if `started` and a kill
otherwise; on delivery it returns nil and only `started` changes, to false; on a delivery
error it returns that error and the record is unchanged. Whenever `Stop` returns,
`running` and the handle are what they were. -/
theorem Stop_signal_choice (host : Host) (localIP : String) (as : List Action) (s : Sys)
    (sig : Option String) (p : Pid)
    (hreach : run host as (newSys localIP) = some s)
    (hr : s.b.running = true) (hp : s.b.process = some p) :
    (∃ r, Stop sig s.b = some r ∧
      r.sent = [(p, if s.b.started then Signal.Interrupt else Signal.Kill)] ∧
      (sig = none → r.ret = none ∧ r.state = { s.b with started := false }) ∧
      (∀ e, sig = some e → r.ret = some (Fault.signalError e) ∧ r.state = s.b)) ∧
    (∀ (sig2 : Option String) (b2 : Bitmarkd) (r2 : CallResult), Stop sig2 b2 = some r2 →
      r2.state.running = b2.running ∧ r2.state.process = b2.process) := by
  have hl : s.b.log = true := by
    rcases run_logger host as (newSys localIP) s hreach (Or.inr ⟨rfl, rfl, rfl⟩) with h | h
    · exact h
    · rw [h.2.1] at hr; exact absurd hr (by decide)
  refine ⟨Stop_running_logged sig s.b p hl hr hp, ?_⟩
  intro sig2 b2 r2 h2
  rcases (Stop_frame sig2 b2 r2 h2).2 with e | e <;> simp [e]

/-- Witness of C2: initialise, select the network, start, spawn pid 7 and mark it running;
delivery of the signal succeeds. -/
theorem Stop_signal_choice_witness :
    run demoHost
        [.initialise "/data", .setNetwork "bitmark" none, .start, .loop 0 .step,
         .loop 0 (.spawned (some 7)), .loop 0 .step, .loop 0 .step] (newSys "10.0.0.1") =
      some demoSpawned ∧
    ∃ r, Stop none demoSpawned.b = some r ∧ r.sent = [(7, Signal.Interrupt)] ∧ r.ret = none ∧
      r.state.started = false :=
  ⟨by decide,
   match (Stop_signal_choice demoHost "10.0.0.1"
      [.initialise "/data", .setNetwork "bitmark" none, .start, .loop 0 .step,
       .loop 0 (.spawned (some 7)), .loop 0 .step, .loop 0 .step] demoSpawned none 7
      (by decide) rfl rfl).1 with
   | ⟨r, h1, h2, h3, _⟩ => ⟨r, h1, h2, (h3 rfl).1, by rw [(h3 rfl).2]⟩⟩

/-! ## Start and Stop on their error paths -/

/-- C1 (as amended): on a supervisor whose logger is set, when `started` is already true
`Start` returns `ErrBitmarkdIsRunning`, otherwise when the config file is absent it
returns `ErrNotFoundConfigFile`; in both cases the record is unchanged (so `IsRunning` is
unchanged), no goroutine is launched and the whole system state is the same after the
call. -/
theorem Start_fails_atomically (host : Host) (s : Sys) (hl : s.b.log = true)
    (h : s.b.started = true ∨ host.fileExists s.b.configFile = false) :
    Start host s.b =
        some ⟨some (if s.b.started then Fault.ErrBitmarkdIsRunning
                    else Fault.ErrNotFoundConfigFile), s.b, false⟩ ∧
      (∀ r, Start host s.b = some r → IsRunning r.state = IsRunning s.b) ∧
      sysStep host .start s = some s := by
  rcases h with h | h
  · simp [Start, sysStep, h, hl]
  · cases hs : s.b.started <;> simp [Start, sysStep, h, hs, hl]

/-- Witness of C1 on the freshly initialised supervisor (config file absent) and on a
started supervisor. -/
theorem Start_fails_atomically_witness :
    (Start demoHost (boot "10.0.0.1" "/data").b =
        some ⟨some Fault.ErrNotFoundConfigFile, (boot "10.0.0.1" "/data").b, false⟩ ∧
      sysStep demoHost .start (boot "10.0.0.1" "/data") = some (boot "10.0.0.1" "/data")) ∧
    (Start demoHost demoSpawned.b = some ⟨some Fault.ErrBitmarkdIsRunning, demoSpawned.b, false⟩ ∧
      sysStep demoHost .start demoSpawned = some demoSpawned) :=
  ⟨⟨(Start_fails_atomically demoHost (boot "10.0.0.1" "/data") rfl (Or.inr (by decide))).1,
    (Start_fails_atomically demoHost (boot "10.0.0.1" "/data") rfl (Or.inr (by decide))).2.2⟩,
   ⟨(Start_fails_atomically demoHost demoSpawned rfl (Or.inl rfl)).1,
    (Start_fails_atomically demoHost demoSpawned rfl (Or.inl rfl)).2.2⟩⟩

/-- Counterexample to C1 as stated: on the supervisor that `NewBitmarkd` returns (never
initialised, logger nil, `started` false, config file absent) `Start` does not return
`ErrNotFoundConfigFile`: the log call of line 166 panics. -/
theorem Start_panics_without_logger :
    (newSys "10.0.0.1").b.started = false ∧
    demoHost.fileExists (newSys "10.0.0.1").b.configFile = false ∧
    Start demoHost (newSys "10.0.0.1").b = none ∧
    Start demoHost (newSys "10.0.0.1").b ≠
      some ⟨some Fault.ErrNotFoundConfigFile, (newSys "10.0.0.1").b, false⟩ ∧
    sysStep demoHost .start (newSys "10.0.0.1") = none := by
  decide

/-- C3 (as amended): on a supervisor whose logger is set, with `running` false, whatever
`started` and the handle are, `Stop` returns `ErrBitmarkdIsNotRunning`, sends no signal
and changes no field: the record and the whole system state (signal log included) are
the same after the call. -/
theorem Stop_not_running (host : Host) (sig : Option String) (s : Sys)
    (hl : s.b.log = true) (h : s.b.running = false) :
    Stop sig s.b = some ⟨some Fault.ErrBitmarkdIsNotRunning, s.b, []⟩ ∧
      sysStep host (.stop sig) s = some s := by
  simp [Stop, sysStep, h, hl]

/-- Witness of C3: a started supervisor holding a handle but not observed running. -/
theorem Stop_not_running_witness :
    Stop none { demoRunning with running := false } =
      some ⟨some Fault.ErrBitmarkdIsNotRunning, { demoRunning with running := false }, []⟩ :=
  (Stop_not_running demoHost none ⟨{ demoRunning with running := false }, [], []⟩ rfl rfl).1

/-- Counterexample to C3 as stated: on the supervisor that `NewBitmarkd` returns (never
initialised, logger nil, `running` false) `Stop` does not return
`ErrBitmarkdIsNotRunning`: the log call of line 272 panics. -/
theorem Stop_panics_without_logger :
    (newSys "10.0.0.1").b.running = false ∧
    Stop none (newSys "10.0.0.1").b = none ∧
    Stop none (newSys "10.0.0.1").b ≠
      some ⟨some Fault.ErrBitmarkdIsNotRunning, (newSys "10.0.0.1").b, []⟩ ∧
    sysStep demoHost (.stop none) (newSys "10.0.0.1") = none := by
  decide

/-! ## Finalise -/

/-- General form of C6, on any record: the logger is needed on an initialised one. -/
theorem Finalise_logged (sig : Option String) (b : Bitmarkd) :
    (b.initialised = false → Finalise sig b = some ⟨some Fault.ErrNotInitialised, b, []⟩) ∧
    (b.log = true → b.initialised = true → b.running = false →
      Finalise sig b = some ⟨none, { b with initialised := false }, []⟩) ∧
    (∀ p, b.log = true → b.initialised = true → b.running = true → b.process = some p →
      ∃ r, Finalise sig b = some r ∧ r.ret = none ∧ r.state.initialised = false ∧
        r.sent = [(p, if b.started then Signal.Interrupt else Signal.Kill)] ∧
        (sig = none → r.state.started = false) ∧
        (sig ≠ none → r.state.started = b.started)) := by
  refine ⟨fun h => by simp [Finalise, h],
    fun hl h1 h2 => by simp [Finalise, Stop, hl, h1, h2], ?_⟩
  intro p hl h1 h2 h3
  cases hs : b.started <;> cases sig <;> simp [Finalise, Stop, hl, h1, h2, h3, hs]

/-- C6 (as amended): in every state reached from a new supervisor, on a supervisor that
is not initialised `Finalise` returns `ErrNotInitialised` and changes nothing. On an
initialised one with `running` false it returns nil and clears `initialised` only,
`started` keeping its value. On an initialised one with `running` true and a handle
present it returns nil, clears `initialised`, sends one signal, and `started` is false
afterwards if the signal was delivered and keeps its value if delivery failed. -/
theorem Finalise_amended (host : Host) (localIP : String) (as : List Action) (s : Sys)
    (sig : Option String) (hreach : run host as (newSys localIP) = some s) :
    (s.b.initialised = false →
      Finalise sig s.b = some ⟨some Fault.ErrNotInitialised, s.b, []⟩) ∧
    (s.b.initialised = true → s.b.running = false →
      Finalise sig s.b = some ⟨none, { s.b with initialised := false }, []⟩) ∧
    (∀ p, s.b.initialised = true → s.b.running = true → s.b.process = some p →
      ∃ r, Finalise sig s.b = some r ∧ r.ret = none ∧ r.state.initialised = false ∧
        r.sent = [(p, if s.b.started then Signal.Interrupt else Signal.Kill)] ∧
        (sig = none → r.state.started = false) ∧
        (sig ≠ none → r.state.started = s.b.started)) := by
  have hlog : s.b.initialised = true → s.b.log = true := by
    intro hi
    rcases run_logger host as (newSys localIP) s hreach (Or.inr ⟨rfl, rfl, rfl⟩) with h | h
    · exact h
    · rw [h.1] at hi; exact absurd hi (by decide)
  obtain ⟨h1, h2, h3⟩ := Finalise_logged sig s.b
  exact ⟨h1, fun hi => h2 (hlog hi) hi, fun p hi => h3 p (hlog hi) hi⟩

/-- Witness of C6: the three cases, on the new supervisor, on the freshly initialised
one, and on an initialised one observed running with handle 7. -/
theorem Finalise_amended_witness :
    Finalise none (newSys "10.0.0.1").b =
      some ⟨some Fault.ErrNotInitialised, (newSys "10.0.0.1").b, []⟩ ∧
    Finalise none (boot "10.0.0.1" "/data").b =
      some ⟨none, { (boot "10.0.0.1" "/data").b with initialised := false }, []⟩ ∧
    (∃ r, Finalise none demoSpawned.b = some r ∧
      r.ret = none ∧ r.state.initialised = false ∧ r.sent = [(7, Signal.Interrupt)] ∧
      r.state.started = false) :=
  ⟨(Finalise_amended demoHost "10.0.0.1" [] (newSys "10.0.0.1") none rfl).1 rfl,
   (Finalise_amended demoHost "10.0.0.1" [.initialise "/data"] (boot "10.0.0.1" "/data") none
      rfl).2.1 rfl rfl,
   match (Finalise_amended demoHost "10.0.0.1"
      [.initialise "/data", .setNetwork "bitmark" none, .start, .loop 0 .step,
       .loop 0 (.spawned (some 7)), .loop 0 .step, .loop 0 .step] demoSpawned none
      (by decide)).2.2 7 rfl rfl rfl with
   | ⟨r, h1, h2, h3, h4, h5, _⟩ => ⟨r, h1, h2, h3, h4, h5 rfl⟩⟩

/-- Counterexample to C6 as stated: right after a successful `Start` (`started` true,
`running` false) `Finalise` returns nil and clears `initialised`, but `started` is still
true; the respawn goroutine then passes its loop test and makes a spawn attempt. -/
theorem Finalise_leaves_started :
    ∃ s r, run demoHost [.setNetwork "bitmark" none, .start] (boot "10.0.0.1" "/data") = some s ∧
      s.b.initialised = true ∧ s.b.started = true ∧ s.b.running = false ∧
      Finalise none s.b = some r ∧ r.ret = none ∧ r.state.initialised = false ∧
      r.state.started = true ∧
      (run demoHost [.finalise none, .loop 0 .step, .loop 0 (.spawned (some 7))] s).map
        (fun s1 => s1.loops.map (fun l => l.spawns)) = some [1] :=
  ⟨_, _, rfl, rfl, rfl, rfl, rfl, rfl, rfl, rfl, rfl⟩

/-! ## Back-off arithmetic of the respawn goroutine -/

/-- Size bound used below the overflow threshold. -/
theorem crash_bound (c : Nat) (h : c ≤ 42949) : 5 * c * c ≤ 5 * 42949 * 42949 := by
  have h1 : c * c ≤ 42949 * 42949 := Nat.mul_le_mul h h
  calc 5 * c * c = 5 * (c * c) := by ring
    _ ≤ 5 * (42949 * 42949) := Nat.mul_le_mul_left 5 h1
    _ = 5 * 42949 * 42949 := by ring

/-- Up to a counter of 42949 no multiplication wraps: the argument of `time.Sleep` is
`5 * c ^ 2` seconds. -/
theorem sleepDuration_exact (c : Nat) (h : c ≤ 42949) :
    sleepDuration c = 5 * (c : Int) ^ 2 * Second := by
  have hb := crash_bound c h
  have h5 : 5 * c < 2 ^ 64 := by omega
  have hd : delayTime c = 5 * c * c := by
    unfold delayTime
    rw [Nat.mod_eq_of_lt h5, Nat.mod_eq_of_lt (by omega)]
  have hcast : ((5 * c * c : Nat) : Int) = 5 * (c : Int) ^ 2 := by push_cast; ring
  have hnn : (0 : Int) ≤ 5 * (c : Int) ^ 2 := by positivity
  have hle : 5 * (c : Int) ^ 2 ≤ 5 * 42949 * 42949 := by
    rw [← hcast]; exact_mod_cast hb
  have w1 : wrapInt64 (5 * (c : Int) ^ 2) = 5 * (c : Int) ^ 2 := by
    unfold wrapInt64
    rw [Int.emod_eq_of_lt (by omega) (by omega)]; ring
  have w2 : wrapInt64 (5 * (c : Int) ^ 2 * Second) = 5 * (c : Int) ^ 2 * Second := by
    unfold wrapInt64 Second
    rw [Int.emod_eq_of_lt (by omega) (by omega)]; ring
  unfold sleepDuration
  rw [hd, hcast, w1, w2]

/-- Peeling the first element off a mapped range. -/
theorem map_range_shift {α : Type} (f : Nat → α) (c n : Nat) :
    f (c + 1) :: List.map (fun i => f (c + 1 + i + 1)) (List.range n) =
      List.map (fun i => f (c + i + 1)) (List.range (n + 1)) := by
  rw [List.range_succ_eq_map, List.map_cons, List.map_map]
  congr 1
  apply List.map_congr_left
  intro i _
  show f (c + 1 + i + 1) = f (c + (i + 1) + 1)
  rw [show c + 1 + i + 1 = c + (i + 1) + 1 from by omega]

/-- One crash iteration from the loop head while `started` is true: the counter is
incremented, one sleep is logged with the new counter, the goroutine is back at the head. -/
theorem crashIteration_run (h : Pid) (e : String) (b : Bitmarkd) (l : Loop)
    (hs : b.started = true) (hpc : l.pc = .head) :
    loopRun (crashIteration h e) b l =
      some ({ b with process := none, running := false },
            { pc := .head, runCounter := bump l.runCounter,
              sleeps := l.sleeps ++ [sleepDuration (bump l.runCounter)],
              spawns := l.spawns + 1 }) := by
  obtain ⟨pc, c, sl, sp⟩ := l
  obtain ⟨i, lg, rp, cf, nw, pr, ru, st, ce, ip⟩ := b
  simp only at hpc hs
  subst hpc hs
  rfl

/-- After `n` crash iterations (counter still below its ceiling) the goroutine has
logged the `n` sleeps computed from the successive counter values. -/
theorem crashRun_sleeps (h : Pid) (e : String) (n : Nat) :
    ∀ (b : Bitmarkd) (l : Loop), b.started = true → l.pc = .head →
      l.runCounter + n ≤ 65535 →
      ∃ b1 l1, crashRun h e n b l = some (b1, l1) ∧ b1.started = true ∧ l1.pc = .head ∧
        l1.runCounter = l.runCounter + n ∧
        l1.sleeps =
          l.sleeps ++ (List.range n).map (fun i => sleepDuration (l.runCounter + i + 1)) := by
  induction n with
  | zero => intro b l hs hpc _; exact ⟨b, l, rfl, hs, hpc, rfl, by simp⟩
  | succ n ih =>
    intro b l hs hpc hle
    have hb : bump l.runCounter = l.runCounter + 1 := by
      unfold bump; rw [if_pos (by omega)]
    obtain ⟨b1, l1, h1, h2, h3, h4, h5⟩ :=
      ih { b with process := none, running := false }
        { pc := .head, runCounter := bump l.runCounter,
          sleeps := l.sleeps ++ [sleepDuration (bump l.runCounter)],
          spawns := l.spawns + 1 } hs rfl (by simp only [hb]; omega)
    refine ⟨b1, l1, ?_, h2, h3, ?_, ?_⟩
    · show (match loopRun (crashIteration h e) b l with
        | none => none
        | some (b1, l1) => crashRun h e n b1 l1) = _
      rw [crashIteration_run h e b l hs hpc]
      exact h1
    · rw [h4]; simp only [hb]; omega
    · rw [h5]
      simp only [hb, List.append_assoc, List.singleton_append]
      rw [map_range_shift sleepDuration]

/-- In a goroutine fresh from `Start` whose every spawn succeeds and whose every exit is
an error while `started` stays true, the counter at the `N`th exit is `N` and the `N`th
argument of `time.Sleep` is `sleepDuration N`, for `N` from 1 to 65535. -/
theorem crashRun_nth_sleep (h : Pid) (e : String) (N : Nat) (b : Bitmarkd)
    (h1 : 1 ≤ N) (h2 : N ≤ 65535) (hs : b.started = true) :
    ∃ b1 l1, crashRun h e N b Loop.fresh = some (b1, l1) ∧ l1.runCounter = N ∧
      l1.sleeps.length = N ∧ l1.sleeps[N - 1]? = some (sleepDuration N) := by
  obtain ⟨b1, l1, h3, _, _, h4, h5⟩ :=
    crashRun_sleeps h e N b Loop.fresh hs rfl (by show 0 + N ≤ 65535; omega)
  have h6 : l1.sleeps = List.map (fun i => sleepDuration (0 + i + 1)) (List.range N) := by
    rw [h5]; exact List.nil_append _
  refine ⟨b1, l1, h3, ?_, ?_, ?_⟩
  · rw [h4]; exact Nat.zero_add N
  · rw [h6, List.length_map, List.length_range]
  · rw [h6, List.getElem?_map, List.getElem?_range (by omega)]
    have hN : 0 + (N - 1) + 1 = N := by omega
    simp only [Option.map_some', hN]

/-- Below the threshold the claim of C4 holds: for `N` from 1 to 42949 the sleep after
the `N`th exit is exactly `5 * N ^ 2` seconds. -/
theorem backoff_exact_below_threshold (N : Nat) (h1 : 1 ≤ N) (h2 : N ≤ 42949) (h : Pid)
    (e : String) (b : Bitmarkd) (hs : b.started = true) :
    ∃ b1 l1, crashRun h e N b Loop.fresh = some (b1, l1) ∧
      l1.sleeps[N - 1]? = some (5 * (N : Int) ^ 2 * Second) := by
  obtain ⟨b1, l1, h3, _, _, h5⟩ := crashRun_nth_sleep h e N b h1 (by omega) hs
  exact ⟨b1, l1, h3, by rw [h5, sleepDuration_exact N h2]⟩

/-- C4 (evaluation at the failing input): in the goroutine launched by `Start` on a
freshly initialised supervisor, with every spawn succeeding and every exit an error, the
counter at the 42950th exit is 42950 and the value passed to `time.Sleep` is the wrapped,
negative `-9223231573709551616` nanoseconds, not `5 * 42950 ^ 2` seconds. -/
theorem backoff_overflows :
    ∃ s b l, run demoHost [.setNetwork "bitmark" none, .start] (boot "10.0.0.1" "/data") = some s ∧
      s.loops = [Loop.fresh] ∧
      crashRun 7 "exit status 1" 42950 s.b Loop.fresh = some (b, l) ∧
      l.runCounter = 42950 ∧
      l.sleeps[42950 - 1]? = some (-9223231573709551616) ∧
      l.sleeps[42950 - 1]? ≠ some (5 * (42950 : Int) ^ 2 * Second) := by
  obtain ⟨b, l, h1, h4, _, h5⟩ :=
    crashRun_nth_sleep 7 "exit status 1" 42950
      { initialised := true, log := true, rootPath := "/data",
        configFile := "/data/bitmark/bitmarkd.conf", network := "bitmark", process := none,
        running := false, started := true, cmdErr := "", localIP := "10.0.0.1" }
      (by omega) (by omega) rfl
  have hv : sleepDuration 42950 = -9223231573709551616 := by decide
  rw [hv] at h5
  refine ⟨⟨_, [Loop.fresh], []⟩, b, l, rfl, rfl, h1, h4, h5, ?_⟩
  rw [h5]
  decide

/-- C9 (as amended): when `cmd.Wait` returns an error while `started` is true, the
goroutine calls `time.Sleep` once with `sleepDuration runCounter` and only then reaches
the next spawn attempt; for a counter from 1 to 42949 that is exactly `5 * counter ^ 2`
seconds, at least 5 seconds. When `cmd.Wait` returns no error the goroutine reaches the
next spawn attempt without sleeping. -/
theorem exit_while_started (b : Bitmarkd) (l : Loop) (e : String)
    (hpc : l.pc = .waiting) (hs : b.started = true) :
    (∃ b1 l1, loopRun [.exited (some e), .step, .step, .step, .step] b l = some (b1, l1) ∧
      l1.pc = .spawning ∧ l1.sleeps = l.sleeps ++ [sleepDuration l.runCounter] ∧
      l1.spawns = l.spawns) ∧
    (1 ≤ l.runCounter → l.runCounter ≤ 42949 →
      sleepDuration l.runCounter = 5 * (l.runCounter : Int) ^ 2 * Second ∧
      5 * Second ≤ sleepDuration l.runCounter) ∧
    (∃ b2 l2, loopRun [.exited none, .step, .step, .step] b l = some (b2, l2) ∧
      l2.pc = .spawning ∧ l2.sleeps = l.sleeps ∧ l2.spawns = l.spawns) := by
  obtain ⟨pc, c, sl, sp⟩ := l
  obtain ⟨i, lg, rp, cf, nw, pr, ru, st, ce, ip⟩ := b
  simp only at hpc hs
  subst hpc hs
  refine ⟨⟨_, _, rfl, rfl, rfl, rfl⟩, ?_, ⟨_, _, rfl, rfl, rfl, rfl⟩⟩
  intro h1 h2
  simp only at h1 h2 ⊢
  have hx := sleepDuration_exact c h2
  refine ⟨hx, ?_⟩
  rw [hx]
  have hc : (1 : Int) ≤ (c : Int) := by exact_mod_cast h1
  have hsq : (1 : Int) ≤ (c : Int) ^ 2 := by nlinarith
  have hsec : (0 : Int) ≤ Second := by unfold Second; norm_num
  nlinarith

/-- Witness of C9: third error exit of a started supervisor, the sleep is 45 seconds. -/
theorem exit_while_started_witness :
    (∃ b1 l1, loopRun [.exited (some "exit status 1"), .step, .step, .step, .step]
        demoRunning
        { pc := .waiting, runCounter := 3, sleeps := [5000000000, 20000000000], spawns := 3 } =
          some (b1, l1) ∧
      l1.pc = .spawning ∧
      l1.sleeps = [5000000000, 20000000000] ++ [sleepDuration 3] ∧ l1.spawns = 3) ∧
    sleepDuration 3 = 5 * ((3 : Nat) : Int) ^ 2 * Second ∧ 5 * Second ≤ sleepDuration 3 :=
  ⟨(exit_while_started demoRunning
      { pc := .waiting, runCounter := 3, sleeps := [5000000000, 20000000000], spawns := 3 }
      "exit status 1" rfl rfl).1,
   (exit_while_started demoRunning
      { pc := .waiting, runCounter := 3, sleeps := [5000000000, 20000000000], spawns := 3 }
      "exit status 1" rfl rfl).2.1 (by decide) (by decide)⟩

/-- Counterexample to C9 as stated: a started supervisor whose subprocess exits with
status 0 (`cmd.Wait` returns nil) is respawned with no sleep in between. -/
theorem clean_exit_not_backed_off :
    ∃ s, run demoHost
        [.setNetwork "bitmark" none, .start, .loop 0 .step, .loop 0 (.spawned (some 7)),
         .loop 0 .step, .loop 0 .step, .loop 0 (.exited none), .loop 0 .step, .loop 0 .step,
         .loop 0 .step, .loop 0 (.spawned (some 8))]
        (boot "10.0.0.1" "/data") = some s ∧
      s.b.started = true ∧
      s.loops = [{ pc := .assignProcess 8, runCounter := 2, sleeps := [], spawns := 2 }] := by
  decide

/-! ## Runs, quiet actions and reader lines -/

/-- A run over a concatenation is the run over the first part followed by the second. -/
theorem run_append (host : Host) :
    ∀ (xs ys : List Action) (s s1 : Sys),
      run host (xs ++ ys) s = some s1 ↔
        ∃ s2, run host xs s = some s2 ∧ run host ys s2 = some s1 := by
  intro xs
  induction xs with
  | nil => intro ys s s1; simp [run]
  | cons a xs ih =>
    intro ys s s1
    simp only [List.cons_append, run]
    cases hstep : sysStep host a s with
    | none => simp
    | some s3 => simpa using ih ys s3 s1

/-- A quiet action leaves the goroutines and the handle alone, does not set `started` or
`running`, and writes `cmdErr` only if it is a reader line (a non-empty one only if it
is a stderr line). -/
theorem quiet_step (host : Host) (a : Action) (s s1 : Sys) (hq : a.quiet = true)
    (h : sysStep host a s = some s1) :
    s1.loops = s.loops ∧ s1.b.process = s.b.process ∧
      (s.b.started = false → s1.b.started = false) ∧
      (s.b.running = false → s1.b.running = false) ∧
      (a.isStderr = false → s.b.cmdErr = "" → s1.b.cmdErr = "") ∧
      (a.isReader = false → s1.b.cmdErr = s.b.cmdErr) := by
  cases a with
  | initialise rootPath =>
    simp only [sysStep, Option.some.injEq] at h
    subst h
    simp only [Initialise]
    split <;> simp
  | start => simp [Action.quiet] at hq
  | stop sig =>
    simp only [sysStep, Option.map_eq_some'] at h
    obtain ⟨r, hr, rfl⟩ := h
    rcases (Stop_frame sig s.b r hr).2 with e | e <;> simp [e]
  | setNetwork n sig =>
    simp only [sysStep, Option.map_eq_some'] at h
    obtain ⟨r, hr, rfl⟩ := h
    obtain ⟨_, h2, h3, h4, _, h6⟩ := SetNetwork_frame host n sig s.b r hr
    refine ⟨rfl, h3, ?_, ?_, ?_, ?_⟩
    · intro hs; rcases h6 with e | e <;> simp [e, hs]
    · intro hr; simp [h2, hr]
    · intro _ hc; simp [h4, hc]
    · intro _; exact h4
  | finalise sig =>
    simp only [sysStep, Option.map_eq_some'] at h
    obtain ⟨r, hr, rfl⟩ := h
    obtain ⟨_, h2, h3, h4, h5, _⟩ := Finalise_frame sig s.b r hr
    refine ⟨rfl, h3, ?_, ?_, ?_, ?_⟩
    · intro hs; rcases h5 with e | e <;> simp [e, hs]
    · intro hr; simp [h2, hr]
    · intro _ hc; simp [h4, hc]
    · intro _; exact h4
  | loop i ev => simp [Action.quiet] at hq
  | stderrLine line =>
    simp only [sysStep, Option.some.injEq] at h
    subst h
    simp [Action.isStderr, Action.isReader]
  | stdoutLine line =>
    simp only [sysStep] at h
    split at h <;> simp only [Option.some.injEq] at h <;> subst h <;>
      simp [Action.isReader]

/-- The same along a run of quiet actions. -/
theorem quiet_run (host : Host) :
    ∀ (q : List Action) (s s1 : Sys), (∀ a ∈ q, a.quiet = true) → run host q s = some s1 →
      s1.loops = s.loops ∧ s1.b.process = s.b.process ∧
        (s.b.started = false → s1.b.started = false) ∧
        (s.b.running = false → s1.b.running = false) ∧
        ((∀ a ∈ q, a.isStderr = false) → s.b.cmdErr = "" → s1.b.cmdErr = "") ∧
        ((∀ a ∈ q, a.isReader = false) → s1.b.cmdErr = s.b.cmdErr) := by
  intro q
  induction q with
  | nil =>
    intro s s1 _ h
    simp only [run, Option.some.injEq] at h
    subst h
    simp
  | cons a q ih =>
    intro s s1 hq h
    simp only [run] at h
    cases hstep : sysStep host a s with
    | none => simp [hstep] at h
    | some s2 =>
      simp only [hstep] at h
      obtain ⟨a1, a2, a3, a4, a5, a6⟩ :=
        quiet_step host a s s2 (hq a (List.mem_cons_self a q)) hstep
      obtain ⟨b1, b2, b3, b4, b5, b6⟩ :=
        ih s2 s1 (fun x hx => hq x (List.mem_cons_of_mem a hx)) h
      refine ⟨b1.trans a1, b2.trans a2, fun hs => b3 (a3 hs), fun hr => b4 (a4 hr), ?_, ?_⟩
      · intro hno hc
        exact b5 (fun x hx => hno x (List.mem_cons_of_mem a hx))
          (a5 (hno a (List.mem_cons_self a q)) hc)
      · intro hno
        exact (b6 (fun x hx => hno x (List.mem_cons_of_mem a hx))).trans
          (a6 (hno a (List.mem_cons_self a q)))

/-- Reader lines are always enabled: a run of reader lines does not fail. -/
theorem reader_run (host : Host) :
    ∀ (q : List Action) (s : Sys), (∀ a ∈ q, a.isReader = true) →
      ∃ s1, run host q s = some s1 := by
  intro q
  induction q with
  | nil => intro s _; exact ⟨s, rfl⟩
  | cons a q ih =>
    intro s hq
    have ha := hq a (List.mem_cons_self a q)
    have hstep : ∃ s2, sysStep host a s = some s2 := by
      cases a with
      | stderrLine line => exact ⟨_, rfl⟩
      | stdoutLine line => simp only [sysStep]; split <;> exact ⟨_, rfl⟩
      | initialise rootPath => simp [Action.isReader] at ha
      | start => simp [Action.isReader] at ha
      | stop sig => simp [Action.isReader] at ha
      | setNetwork n sig => simp [Action.isReader] at ha
      | finalise sig => simp [Action.isReader] at ha
      | loop i ev => simp [Action.isReader] at ha
    obtain ⟨s2, h2⟩ := hstep
    obtain ⟨s1, h1⟩ := ih s2 (fun x hx => hq x (List.mem_cons_of_mem a hx))
    exact ⟨s1, by simp only [run, h2]; exact h1⟩

/-- One step of goroutine `i` followed by quiet actions: where the goroutine and the
record stand afterwards, and that the segment does not fail when the quiet actions are
reader lines. -/
theorem loop_segment (host : Host) (s : Sys) (i : Nat) (l l1 : Loop) (b1 : Bitmarkd)
    (ev : LoopEvent) (q : List Action)
    (hl : s.loops[i]? = some l) (hstep : loopStep ev s.b l = some (b1, l1))
    (hq : ∀ a ∈ q, a.quiet = true) :
    ((∀ a ∈ q, a.isReader = true) → ∃ s2, run host ([.loop i ev] ++ q) s = some s2) ∧
    (∀ s2, run host ([.loop i ev] ++ q) s = some s2 →
      s2.loops[i]? = some l1 ∧ s2.b.process = b1.process ∧
        (b1.started = false → s2.b.started = false) ∧
        (b1.running = false → s2.b.running = false) ∧
        ((∀ a ∈ q, a.isStderr = false) → b1.cmdErr = "" → s2.b.cmdErr = "") ∧
        ((∀ a ∈ q, a.isReader = false) → s2.b.cmdErr = b1.cmdErr)) := by
  have hi : i < s.loops.length := by
    rcases Nat.lt_or_ge i s.loops.length with h | h
    · exact h
    · rw [List.getElem?_eq_none h] at hl; exact absurd hl (by simp)
  have hsys : sysStep host (.loop i ev) s =
      some { s with b := b1, loops := s.loops.set i l1 } := by
    simp only [sysStep, hl, hstep, Option.map_some']
  have hrun : ∀ s2, run host ([.loop i ev] ++ q) s = some s2 ↔
      run host q { s with b := b1, loops := s.loops.set i l1 } = some s2 := by
    intro s2
    show run host (Action.loop i ev :: q) s = some s2 ↔ _
    simp only [run, hsys]
  constructor
  · intro hr
    obtain ⟨s2, h2⟩ := reader_run host q { s with b := b1, loops := s.loops.set i l1 } hr
    exact ⟨s2, (hrun s2).mpr h2⟩
  · intro s2 h2
    obtain ⟨c1, c2, c3, c4, c5, c6⟩ := quiet_run host q _ s2 hq ((hrun s2).mp h2)
    refine ⟨?_, c2, c3, c4, c5, c6⟩
    rw [c1]
    exact List.getElem?_set_self hi

/-! ## Shutdown of the respawn goroutine -/

/-- Last step of a shutdown: at the loop test with `started` false the goroutine returns. -/
theorem shutdown_tail1 (host : Host) (s : Sys) (i : Nat) (l : Loop)
    (hl : s.loops[i]? = some l) (hpc : l.pc = .head) (hs : s.b.started = false) :
    (∃ s1, run host [.loop i .step] s = some s1) ∧
    (∀ s1, run host [.loop i .step] s = some s1 →
      s1.loops[i]? = some { l with pc := .done } ∧ s1.b.process = s.b.process ∧
        s1.b.running = s.b.running ∧ s1.b.started = false ∧ s1.b.cmdErr = s.b.cmdErr) := by
  have hstep : loopStep .step s.b l = some (s.b, { l with pc := .done }) := by
    simp [loopStep, hpc, hs]
  obtain ⟨e, p⟩ := loop_segment host s i l _ s.b .step [] hl hstep (by simp)
  constructor
  · exact e (by simp)
  · intro s1 h1
    obtain ⟨c1, c2, c3, _, _, c6⟩ := p s1 h1
    refine ⟨c1, c2, ?_, c3 hs, c6 (by simp)⟩
    have hsys : sysStep host (.loop i .step) s =
        some { s with b := s.b, loops := s.loops.set i { l with pc := .done } } := by
      simp only [sysStep, hl, hstep, Option.map_some']
    simp only [run, hsys, Option.some.injEq] at h1
    subst h1
    rfl

/-- Last two steps of a shutdown: line 261, then the loop test. -/
theorem shutdown_tail2 (host : Host) (s : Sys) (i : Nat) (l : Loop) (q3 : List Action)
    (hl : s.loops[i]? = some l) (hpc : l.pc = .clearRunning) (hs : s.b.started = false)
    (hq3 : ∀ a ∈ q3, a.quiet = true) :
    ((∀ a ∈ q3, a.isReader = true) →
      ∃ s1, run host (([.loop i .step] ++ q3) ++ [.loop i .step]) s = some s1) ∧
    (∀ s1, run host (([.loop i .step] ++ q3) ++ [.loop i .step]) s = some s1 →
      s1.loops[i]? = some { l with pc := .done } ∧ s1.b.process = s.b.process ∧
        s1.b.running = false ∧ s1.b.started = false ∧
        ((∀ a ∈ q3, a.isStderr = false) → s.b.cmdErr = "" → s1.b.cmdErr = "") ∧
        ((∀ a ∈ q3, a.isReader = false) → s1.b.cmdErr = s.b.cmdErr)) := by
  have hstep : loopStep .step s.b l =
      some ({ s.b with running := false }, { l with pc := .head }) := by
    simp [loopStep, hpc]
  obtain ⟨e, p⟩ := loop_segment host s i l _ _ .step q3 hl hstep hq3
  constructor
  · intro hr
    obtain ⟨s2, h2⟩ := e hr
    obtain ⟨c1, _, c3, _, _, _⟩ := p s2 h2
    obtain ⟨s1, h1⟩ := (shutdown_tail1 host s2 i _ c1 rfl (c3 hs)).1
    exact ⟨s1, (run_append host _ _ s s1).mpr ⟨s2, h2, h1⟩⟩
  · intro s1 h1
    obtain ⟨s2, h2, h3⟩ := (run_append host _ _ s s1).mp h1
    obtain ⟨c1, c2, c3, c4, c5, c6⟩ := p s2 h2
    obtain ⟨d1, d2, d3, d4, d5⟩ := (shutdown_tail1 host s2 i _ c1 rfl (c3 hs)).2 s1 h3
    refine ⟨d1, d2.trans c2, d3.trans (c4 rfl), d4, ?_, ?_⟩
    · intro hno hc; rw [d5]; exact c5 hno hc
    · intro hno; rw [d5]; exact c6 hno

/-- Last three steps of a shutdown: line 260, line 261, then the loop test. -/
theorem shutdown_tail3 (host : Host) (s : Sys) (i : Nat) (l : Loop) (q2 q3 : List Action)
    (hl : s.loops[i]? = some l) (hpc : l.pc = .clearProcess) (hs : s.b.started = false)
    (hq2 : ∀ a ∈ q2, a.quiet = true) (hq3 : ∀ a ∈ q3, a.quiet = true) :
    ((∀ a ∈ q2, a.isReader = true) → (∀ a ∈ q3, a.isReader = true) →
      ∃ s1, run host (([.loop i .step] ++ q2) ++ (([.loop i .step] ++ q3) ++ [.loop i .step])) s =
        some s1) ∧
    (∀ s1, run host (([.loop i .step] ++ q2) ++ (([.loop i .step] ++ q3) ++ [.loop i .step])) s =
        some s1 →
      s1.loops[i]? = some { l with pc := .done } ∧ s1.b.process = none ∧
        s1.b.running = false ∧ s1.b.started = false ∧
        ((∀ a ∈ q2, a.isStderr = false) → (∀ a ∈ q3, a.isStderr = false) →
          s.b.cmdErr = "" → s1.b.cmdErr = "") ∧
        ((∀ a ∈ q2, a.isReader = false) → (∀ a ∈ q3, a.isReader = false) →
          s1.b.cmdErr = s.b.cmdErr)) := by
  have hstep : loopStep .step s.b l =
      some ({ s.b with process := none }, { l with pc := .clearRunning }) := by
    simp [loopStep, hpc]
  obtain ⟨e, p⟩ := loop_segment host s i l _ _ .step q2 hl hstep hq2
  constructor
  · intro hr2 hr3
    obtain ⟨s2, h2⟩ := e hr2
    obtain ⟨c1, _, c3, _, _, _⟩ := p s2 h2
    obtain ⟨s1, h1⟩ := (shutdown_tail2 host s2 i _ q3 c1 rfl (c3 hs) hq3).1 hr3
    exact ⟨s1, (run_append host _ _ s s1).mpr ⟨s2, h2, h1⟩⟩
  · intro s1 h1
    obtain ⟨s2, h2, h3⟩ := (run_append host _ _ s s1).mp h1
    obtain ⟨c1, c2, c3, _, c5, c6⟩ := p s2 h2
    obtain ⟨d1, d2, d3, d4, d5, d6⟩ :=
      (shutdown_tail2 host s2 i _ q3 c1 rfl (c3 hs) hq3).2 s1 h3
    refine ⟨d1, d2.trans c2, d3, d4, ?_, ?_⟩
    · intro hno2 hno3 hc; exact d5 hno3 (c5 hno2 hc)
    · intro hno2 hno3; exact (d6 hno3).trans (c6 hno2)

/-- C5 (as amended): goroutine `i` is blocked in `cmd.Wait` and `started` is false;
`cmd.Wait` returns `r` and the goroutine takes its remaining steps while other calls
except `Start` and lines of the stream readers are interleaved at will. If the
interleaved actions are reader lines the run does not fail. When the run does not fail,
the goroutine has returned with its sleep log and spawn count unchanged, the handle is
absent, `running` and `started` are false; `cmdErr` is empty if `cmd.Wait` returned an
error and no stderr line arrived after that return, and keeps its value if `cmd.Wait`
returned nil and no reader line arrived. -/
theorem clean_shutdown (host : Host) (s : Sys) (i : Nat) (l : Loop) (r : Option String)
    (q1 q2 q3 : List Action)
    (hl : s.loops[i]? = some l) (hpc : l.pc = .waiting) (hs : s.b.started = false)
    (hq : ∀ a ∈ q1 ++ q2 ++ q3, a.quiet = true) :
    ((∀ a ∈ q1 ++ q2 ++ q3, a.isReader = true) →
      ∃ s1, run host (shutdownSchedule i r q1 q2 q3) s = some s1) ∧
    (∀ s1, run host (shutdownSchedule i r q1 q2 q3) s = some s1 →
      s1.loops[i]? = some { l with pc := .done } ∧ s1.b.process = none ∧
        s1.b.running = false ∧ s1.b.started = false ∧
        (r ≠ none → (∀ a ∈ q1 ++ q2 ++ q3, a.isStderr = false) → s1.b.cmdErr = "") ∧
        (r = none → (∀ a ∈ q1 ++ q2 ++ q3, a.isReader = false) →
          s1.b.cmdErr = s.b.cmdErr)) := by
  have hq1 : ∀ a ∈ q1, a.quiet = true := fun a ha => hq a (by simp [ha])
  have hq2 : ∀ a ∈ q2, a.quiet = true := fun a ha => hq a (by simp [ha])
  have hq3 : ∀ a ∈ q3, a.quiet = true := fun a ha => hq a (by simp [ha])
  have hsched : shutdownSchedule i r q1 q2 q3 =
      ([.loop i (.exited r)] ++ q1) ++
        (([.loop i .step] ++ q2) ++ (([.loop i .step] ++ q3) ++ [.loop i .step])) := by
    simp [shutdownSchedule]
  obtain ⟨bA, h0, hA1, hA2, hA3⟩ : ∃ bA,
      loopStep (.exited r) s.b l = some (bA, { l with pc := .clearProcess }) ∧
      bA.started = false ∧ (r ≠ none → bA.cmdErr = "") ∧
      (r = none → bA.cmdErr = s.b.cmdErr) := by
    cases r with
    | none => exact ⟨s.b, by simp [loopStep, hpc], hs, by simp, by simp⟩
    | some e =>
      exact ⟨{ s.b with cmdErr := "" }, by simp [loopStep, hpc, hs], hs, by simp, by simp⟩
  obtain ⟨e, p⟩ := loop_segment host s i l _ bA (.exited r) q1 hl h0 hq1
  rw [hsched]
  constructor
  · intro hr
    obtain ⟨s2, h2⟩ := e (fun a ha => hr a (by simp [ha]))
    obtain ⟨c1, _, c3, _, _, _⟩ := p s2 h2
    obtain ⟨s1, h1⟩ := (shutdown_tail3 host s2 i _ q2 q3 c1 rfl (c3 hA1) hq2 hq3).1
      (fun a ha => hr a (by simp [ha])) (fun a ha => hr a (by simp [ha]))
    exact ⟨s1, (run_append host _ _ s s1).mpr ⟨s2, h2, h1⟩⟩
  · intro s1 h1
    obtain ⟨s2, h2, h3⟩ := (run_append host _ _ s s1).mp h1
    obtain ⟨c1, _, c3, _, c5, c6⟩ := p s2 h2
    obtain ⟨d1, d2, d3, d4, d5, d6⟩ :=
      (shutdown_tail3 host s2 i _ q2 q3 c1 rfl (c3 hA1) hq2 hq3).2 s1 h3
    refine ⟨d1, d2, d3, d4, ?_, ?_⟩
    · intro hr hno
      exact d5 (fun a ha => hno a (by simp [ha])) (fun a ha => hno a (by simp [ha]))
        (c5 (fun a ha => hno a (by simp [ha])) (hA2 hr))
    · intro hr hno
      exact ((d6 (fun a ha => hno a (by simp [ha])) (fun a ha => hno a (by simp [ha]))).trans
        (c6 (fun a ha => hno a (by simp [ha])))).trans (hA3 hr)

/-- Witness of C5: the subprocess of `demoStopped` dies of the interrupt; a second `Stop`
(a kill) and a `SetNetwork` arrive while the goroutine winds down. -/
theorem clean_shutdown_witness :
    run demoHost
        (shutdownSchedule 0 (some "signal: interrupt") [.stop none] []
          [.setNetwork "testing" none]) demoStopped = some demoEnded ∧
    demoStopped.b.cmdErr = "boom\n" ∧
    demoEnded.loops[0]? = some { pc := .done, runCounter := 1, sleeps := [], spawns := 1 } ∧
    demoEnded.b.process = none ∧ demoEnded.b.running = false ∧
    demoEnded.b.started = false ∧ demoEnded.b.cmdErr = "" :=
  ⟨by decide, rfl,
   match (clean_shutdown demoHost demoStopped
      0 { pc := .waiting, runCounter := 1, sleeps := [], spawns := 1 }
      (some "signal: interrupt") [.stop none] [] [.setNetwork "testing" none]
      rfl rfl rfl (by decide)).2 demoEnded (by decide) with
   | ⟨h1, h2, h3, h4, h5, _⟩ => ⟨h1, h2, h3, h4, h5 (by simp) (by decide)⟩⟩

/-- Counterexample to C5 as stated, twice. After a successful `Stop` the subprocess exits
with status 0: the goroutine ends and `cmdErr` still holds the last stderr line. After a
successful `Stop` the subprocess dies with an error and the goroutine clears `cmdErr`,
but a line of the stderr reader, which nothing joins, arrives before the goroutine
returns: `cmdErr` holds that line when the loop has ended. -/
theorem clean_exit_keeps_cmdErr :
    (∃ s, run demoHost
        [.setNetwork "bitmark" none, .start, .loop 0 .step, .loop 0 (.spawned (some 7)),
         .loop 0 .step, .loop 0 .step, .stderrLine "boom\n", .stop none,
         .loop 0 (.exited none), .loop 0 .step, .loop 0 .step, .loop 0 .step]
        (boot "10.0.0.1" "/data") = some s ∧
      s.b.started = false ∧ s.signals = [(7, Signal.Interrupt)] ∧
      s.loops.map (fun l => l.pc) = [PC.done] ∧ s.b.cmdErr = "boom\n" ∧ s.b.cmdErr ≠ "") ∧
    (∃ s, run demoHost
        [.setNetwork "bitmark" none, .start, .loop 0 .step, .loop 0 (.spawned (some 7)),
         .loop 0 .step, .loop 0 .step, .stop none,
         .loop 0 (.exited (some "signal: interrupt")), .stderrLine "late\n",
         .loop 0 .step, .loop 0 .step, .loop 0 .step]
        (boot "10.0.0.1" "/data") = some s ∧
      s.b.started = false ∧ s.loops.map (fun l => l.pc) = [PC.done] ∧
      s.b.cmdErr = "late\n" ∧ s.b.cmdErr ≠ "") := by
  decide

/-! ## The invariant between `running` and the handle -/

/-- C7 (evaluation at the failing input): one `Start`, a successful spawn, the two
assignments, an exit, the back-off sleep and the assignment `process = nil` of line 260
lead to a reachable state with `running` true and no handle; `Stop` in that state is the
nil-pointer panic of line 276. -/
theorem running_without_handle :
    ∃ s, run demoHost
        [.setNetwork "bitmark" none, .start, .loop 0 .step, .loop 0 (.spawned (some 7)),
         .loop 0 .step, .loop 0 .step, .loop 0 (.exited (some "exit status 1")),
         .loop 0 .step, .loop 0 .step]
        (boot "10.0.0.1" "/data") = some s ∧
      activeLoops s = 1 ∧ s.b.running = true ∧ s.b.process = none ∧
      Stop none s.b = none ∧ sysStep demoHost (.stop none) s = none := by
  decide

/-- During the back-off sleep the subprocess has exited, yet `running` is still true and
the handle of the dead process is still held: lines 260 and 261 come after the sleep. -/
theorem running_during_backoff :
    ∃ s, run demoHost
        [.setNetwork "bitmark" none, .start, .loop 0 .step, .loop 0 (.spawned (some 7)),
         .loop 0 .step, .loop 0 .step, .loop 0 (.exited (some "exit status 1"))]
        (boot "10.0.0.1" "/data") = some s ∧
      s.loops.map (fun l => l.pc) = [PC.sleeping] ∧ IsRunning s.b = true ∧
      s.b.process = some 7 := by
  decide

/-! ## The number of respawn goroutines -/

/-- C8 (evaluation at the failing input): `Start`, a successful spawn, `Stop`, then
`Start` again before the first goroutine has observed the exit. The first goroutine
finds `started` true again, backs off and goes on; both goroutines are at a spawn
attempt: two respawn goroutines are active. -/
theorem two_respawn_loops :
    ∃ s, run demoHost
        [.setNetwork "bitmark" none, .start, .loop 0 .step, .loop 0 (.spawned (some 7)),
         .loop 0 .step, .loop 0 .step, .stop none, .start,
         .loop 0 (.exited (some "signal: interrupt")), .loop 0 .step, .loop 0 .step,
         .loop 0 .step, .loop 0 .step, .loop 1 .step]
        (boot "10.0.0.1" "/data") = some s ∧
      s.loops.map (fun l => l.pc) = [PC.spawning, PC.spawning] ∧ activeLoops s = 2 ∧
      ¬ activeLoops s ≤ 1 := by
  decide

/-- The same defect when every field reads as stopped: after `Stop` the goroutine has
observed the exit and cleared the handle and `running`, and stands before its loop test;
`started`, `running`, the handle and `cmdErr` all read as stopped. A `Start` at that
moment launches a second goroutine and the first one goes on as well. -/
theorem two_respawn_loops_after_exit :
    ∃ s0 s, run demoHost
        [.setNetwork "bitmark" none, .start, .loop 0 .step, .loop 0 (.spawned (some 7)),
         .loop 0 .step, .loop 0 .step, .stop none,
         .loop 0 (.exited (some "signal: interrupt")), .loop 0 .step, .loop 0 .step]
        (boot "10.0.0.1" "/data") = some s0 ∧
      s0.b.started = false ∧ s0.b.running = false ∧ s0.b.process = none ∧ s0.b.cmdErr = "" ∧
      activeLoops s0 = 1 ∧
      run demoHost [.start, .loop 0 .step, .loop 1 .step] s0 = some s ∧
      s.loops.map (fun l => l.pc) = [PC.spawning, PC.spawning] ∧ activeLoops s = 2 :=
  ⟨_, _, rfl, rfl, rfl, rfl, rfl, rfl, rfl, rfl, rfl⟩

/-! ## Seed extraction -/

/-- Unfolding of `split` on a non-empty input. -/
theorem split_cons (sep c : Char) (cs : List Char) :
    split sep (c :: cs) =
      if c = sep then [] :: split sep cs
      else
        match split sep cs with
        | [] => [[c]]
        | x :: xs => (c :: x) :: xs := rfl

/-- Function `split` never returns the empty slice. -/
theorem split_ne_nil (sep : Char) : ∀ cs : List Char, split sep cs ≠ [] := by
  intro cs
  induction cs with
  | nil => simp [split]
  | cons c cs ih =>
    unfold split
    split
    · simp
    · split <;> simp

/-- Without the separator the input is the only field. -/
theorem split_of_not_mem (sep : Char) :
    ∀ cs : List Char, sep ∉ cs → split sep cs = [cs] := by
  intro cs
  induction cs with
  | nil => intro _; rfl
  | cons c cs ih =>
    intro h
    have hc : ¬ c = sep := fun e => h (by simp [e])
    have hcs : sep ∉ cs := fun e => h (List.mem_cons_of_mem _ e)
    unfold split
    rw [if_neg hc, ih hcs]

/-- The first field is what precedes the first separator. -/
theorem split_append (sep : Char) (rest : List Char) :
    ∀ p : List Char, sep ∉ p → split sep (p ++ sep :: rest) = p :: split sep rest := by
  intro p
  induction p with
  | nil => intro _; simp [split]
  | cons c cs ih =>
    intro h
    have hc : ¬ c = sep := fun e => h (by simp [e])
    have hcs : sep ∉ cs := fun e => h (List.mem_cons_of_mem _ e)
    rw [List.cons_append, split_cons, if_neg hc, ih hcs]

/-- With a separator in the input there is a field of index 1. -/
theorem split_second (sep : Char) :
    ∀ cs : List Char, sep ∈ cs → ∃ field, (split sep cs)[1]? = some field := by
  intro cs
  induction cs with
  | nil => intro h; simp at h
  | cons c cs ih =>
    intro h
    unfold split
    by_cases hc : c = sep
    · rw [if_pos hc]
      cases hsp : split sep cs with
      | nil => exact absurd hsp (split_ne_nil sep cs)
      | cons x xs => exact ⟨x, by simp⟩
    · rw [if_neg hc]
      have hcs : sep ∈ cs := by
        rcases List.mem_cons.mp h with e | e
        · exact absurd e.symm hc
        · exact e
      obtain ⟨f, hf⟩ := ih hcs
      cases hsp : split sep cs with
      | nil => exact absurd hsp (split_ne_nil sep cs)
      | cons x xs =>
        rw [hsp] at hf
        exact ⟨f, by simpa using hf⟩

/-- Nothing is dropped from a list without the cut character. -/
theorem dropWhile_of_not_mem (cut : Char) :
    ∀ cs : List Char, cut ∉ cs → cs.dropWhile (fun c => c = cut) = cs := by
  intro cs h
  cases cs with
  | nil => rfl
  | cons c cs =>
    have hc : ¬ c = cut := fun e => h (by simp [e])
    simp [List.dropWhile, hc]

/-- Trimming removes one trailing cut character from a field without any other. -/
theorem trim_append_cut (cut : Char) (s : List Char) (h : cut ∉ s) :
    trim cut (s ++ [cut]) = s := by
  unfold trim
  have h1 : (s ++ [cut]).dropWhile (fun c => c = cut) = if s = [] then [] else s ++ [cut] := by
    cases s with
    | nil => simp [List.dropWhile]
    | cons c cs =>
      have hc : ¬ c = cut := fun e => h (by simp [e])
      simp [List.dropWhile, hc]
  rw [h1]
  by_cases hs : s = []
  · simp [hs]
  · rw [if_neg hs, List.reverse_append, List.reverse_singleton, List.singleton_append]
    have hr : cut ∉ s.reverse := by simpa using h
    rw [List.dropWhile_cons_of_pos (by simp), dropWhile_of_not_mem cut _ hr, List.reverse_reverse]

/-- What holds of the seed extraction: for every content that contains a `:` it yields a
seed and the tick does not panic; for a content `p + ":" + s + "\n"` where `p` contains
no `:` and `s` contains neither `:` nor a newline, the extracted seed is exactly `s`. -/
theorem extractSeed_delimited (validSeed : String → Bool) :
    (∀ content : String, ':' ∈ content.data →
      (∃ seed, extractSeed content = some seed) ∧ seedTick validSeed content ≠ .panicked) ∧
    (∀ p s : String, ':' ∉ p.data → ':' ∉ s.data → '\n' ∉ s.data →
      extractSeed (p ++ ":" ++ s ++ "\n") = some s) := by
  constructor
  · intro content h
    obtain ⟨f, hf⟩ := split_second ':' content.data h
    have he : extractSeed content = some (String.mk (trim '\n' f)) := by
      unfold extractSeed; rw [hf]
    refine ⟨⟨_, he⟩, ?_⟩
    unfold seedTick
    rw [he]
    show (if validSeed _ = true then TickOutcome.proceeds _ else TickOutcome.aborted) ≠ _
    split <;> simp
  · intro p s hp hs hn
    have hd : (p ++ ":" ++ s ++ "\n").data = p.data ++ ':' :: (s.data ++ ['\n']) := by
      simp [String.data_append]
    have hs2 : ':' ∉ s.data ++ ['\n'] := by
      simp only [List.mem_append, List.mem_singleton, not_or]
      exact ⟨hs, by decide⟩
    unfold extractSeed
    rw [hd, split_append ':' _ p.data hp, split_of_not_mem ':' _ hs2]
    simp only [List.getElem?_cons_succ, List.getElem?_cons_zero]
    rw [trim_append_cut '\n' s.data hn]

/-- Element 1 of the split is the second field of the record: with `p = "a:b"` and
`s = "c"` the content `p + ":" + s + "\n"` yields the seed `b`. -/
theorem extractSeed_second_field :
    ':' ∉ "c".data ∧ '\n' ∉ "c".data ∧
    extractSeed ("a:b" ++ ":" ++ "c" ++ "\n") = some "b" ∧
    extractSeed ("a:b" ++ ":" ++ "c" ++ "\n") ≠ some "c" := by
  decide

/-- C10 (evaluation at the failing input): on the empty content and on a content without
`:` the slice returned by the split has one element, the index 1 of line 345 is out of
range and the tick panics instead of being aborted. -/
theorem extractSeed_panics :
    split ':' "".data = [[]] ∧ extractSeed "" = none ∧
    seedTick (fun _ => true) "" = .panicked ∧
    (split ':' "no delimiter\n".data).length = 1 ∧ extractSeed "no delimiter\n" = none ∧
    seedTick (fun _ => true) "no delimiter\n" = .panicked := by
  decide

end Services
